import Mathlib

/-!
Verification of the discount-validation and deduplication pipeline of
`amazon_discount_finder.py`.

Modelling conventions (shallow embedding):

* Python strings are embedded as `List Char` (`Str`); Python slicing
  `s[:n]` is `List.take n`, `len` is `List.length`, `str.lower()` is a
  character-wise `Char.toLower` (exact on the ASCII data involved),
  `a in b` on strings is the substring test `occursIn`, and
  `str.replace` is the left-to-right non-overlapping `replaceAll`.
* Prices (Python floats obtained from JSON decimal amounts) are embedded
  as exact rationals `ℚ`; the discount arithmetic of the script is the
  field arithmetic `(original - current) / original * 100`.
* Network calls (`search_items`, `get_product_info`, the two posting
  endpoints) are modelled as oracles supplied as inputs to the run:
  a list of per-task search results and a detail function
  `Str → Option ProductInfo`; a failed / empty search is `none`, a failed
  detail fetch is `none`.
* The persisted results file `discount_results.json` is modelled by
  `StoreContent`: absent file, whitespace-only file, unparsable content
  (a JSON decode error, carrying the raw text), or a parsed list of
  records.  Logging is modelled by the severity of the messages emitted.
* `posted_asins` is a Python `set`; it is embedded as a duplicate-free
  growing list whose membership test is list membership.
* Python's `list.sort(key=..., reverse=True)` is a stable descending
  sort; it is embedded as the stable descending insertion sort
  `sortByDiscountDesc` (any two stable sorts of the same key agree
  extensionally).
-/

namespace AmazonDiscountFinder

/-- Python strings, as lists of unicode code points. -/
abbrev Str := List Char

/-- Constant `MIN_DISCOUNT_PERCENT = 15` (line 87). -/
def MIN_DISCOUNT_PERCENT : ℚ := 15

/-- Constant `MAX_DISCOUNT_PERCENT = 80` (line 88). -/
def MAX_DISCOUNT_PERCENT : ℚ := 80

/-- Constant `MAX_RESULTS_STORED = 200` (line 91). -/
def MAX_RESULTS_STORED : Nat := 200

/-- Python `str.lower()` (character-wise, exact for the ASCII data involved). -/
def lowerStr (s : Str) : Str := s.map Char.toLower

/-- Python `str.startswith` / the prefix test used by substring search. -/
def isPref : Str → Str → Bool
  | [], _ => true
  | _ :: _, [] => false
  | a :: p, b :: s => a == b && isPref p s

/-- Python `pat in s` for strings: does `pat` occur as a contiguous substring? -/
def occursIn (pat s : Str) : Bool :=
  (List.range (s.length + 1)).any fun k => isPref pat (s.drop k)

/--
A single entry of `Offers.Listings` as used by the script: the merchant
name (`MerchantInfo.Name`), the price (`Price.Amount`) and the reference
price (`SavingBasis.Amount`), each possibly missing.
-/
structure Listing where
  merchantName : Option Str
  price : Option ℚ
  savingBasis : Option ℚ

/--
The slice of a PA-API `GetItems` product payload that
`filter_discounted_items` reads: title (`ItemInfo.Title.DisplayValue`),
the offer listings, the canonical URL (`DetailPageURL`) and the large
image URL (`Images.Primary.Large.URL`).
-/
structure ProductInfo where
  title : Option Str
  listings : List Listing
  detailPageURL : Option Str
  imageURL : Option Str

/--
Function `is_amazon_merchant` (lines 371-384): the first listing's merchant name,
lowercased, must equal `"amazon"` or contain `"amazon.co.jp"`; any missing
field gives `False` (the code's fall-through and `except` paths).
-/
def is_amazon_merchant (p : ProductInfo) : Bool :=
  match p.listings with
  | l :: _ =>
    match l.merchantName with
    | some n =>
      decide (lowerStr n = ("amazon".toList)) ||
        occursIn ("amazon.co.jp".toList) (lowerStr n)
    | none => false
  | [] => false

/--
Function `is_reasonable_discount` (lines 386-403): reject when there is no
discount, when the discount percent reaches `MAX_DISCOUNT_PERCENT`, and
when the original price exceeds three times the current price.
-/
def is_reasonable_discount (current_price original_price : ℚ) : Bool :=
  if original_price ≤ current_price then false
  else if MAX_DISCOUNT_PERCENT ≤ (original_price - current_price) / original_price * 100 then
    false
  else if current_price * 3 < original_price then false
  else true

/-- Field `Offers.Listings[0].Price.Amount`, when present (lines 429-433). -/
def currentPriceOf (p : ProductInfo) : Option ℚ :=
  match p.listings with
  | l :: _ => l.price
  | [] => none

/-- Field `Offers.Listings[0].SavingBasis.Amount`, when present (lines 429-436). -/
def originalPriceOf (p : ProductInfo) : Option ℚ :=
  match p.listings with
  | l :: _ => l.savingBasis
  | [] => none

/--
The persisted product dictionary built at lines 450-462 and enriched with
the posting outcome flags at lines 882-883 (`posted_at` is wall-clock
time and is not modelled).
-/
structure DiscountRecord where
  asin : Str
  title : Str
  current_price : ℚ
  original_price : ℚ
  discount_amount : ℚ
  discount_percent : ℚ
  url : Str
  image_url : Option Str
  posted_to_twitter : Bool := false
  posted_to_threads : Bool := false
deriving DecidableEq, Repr

/--
The per-item body of the loop of `filter_discounted_items`
(lines 409-465), after the detail fetch: merchant check, title default,
price extraction, the missing/no-discount skip, the discount computation
and the acceptance test `discount_percent >= min_discount_percent and
is_reasonable_discount(...)`.  `partnerTag` is the `PARTNER_TAG`
environment variable used by the fallback URL.
-/
def evaluate_item (partnerTag : Str) (min_discount_percent : ℚ) (asin : Str)
    (p : ProductInfo) : Option DiscountRecord :=
  if !is_amazon_merchant p then none
  else
    let title := p.title.getD ("不明".toList)
    match currentPriceOf p, originalPriceOf p with
    | some current_price, some original_price =>
      if original_price ≤ current_price then none
      else
        let discount_amount := original_price - current_price
        let discount_percent := discount_amount / original_price * 100
        if min_discount_percent ≤ discount_percent ∧
            is_reasonable_discount current_price original_price = true then
          some
            { asin := asin
              title := title
              current_price := current_price
              original_price := original_price
              discount_amount := discount_amount
              discount_percent := discount_percent
              url := p.detailPageURL.getD
                (("https://www.amazon.co.jp/dp/".toList) ++ asin ++
                  ("?tag=".toList) ++ partnerTag)
              image_url := p.imageURL }
        else none
    | _, _ => none

/--
Stable insertion of one record into a descending-by-`discount_percent`
list: a record moves ahead only of strictly smaller percentages, so ties
keep their original relative order, exactly as Python's stable
`list.sort(..., reverse=True)`.
-/
def insertDesc (x : DiscountRecord) : List DiscountRecord → List DiscountRecord
  | [] => [x]
  | y :: ys =>
    if y.discount_percent < x.discount_percent then x :: y :: ys
    else y :: insertDesc x ys

/-- The sort call `discounted_items.sort(key=..., reverse=True)` of line 468. -/
def sortByDiscountDesc (l : List DiscountRecord) : List DiscountRecord :=
  l.foldl (fun acc x => insertDesc x acc) []

/--
The accepted records of one task's item list, in input order, before the
sort: each item's ASIN is looked up through the detail oracle
(`get_product_info`, a skipped item on `none`) and evaluated.
-/
def accepted_records (partnerTag : Str) (detail : Str → Option ProductInfo)
    (items : List Str) (min_discount_percent : ℚ) : List DiscountRecord :=
  items.filterMap fun asin =>
    (detail asin).bind (evaluate_item partnerTag min_discount_percent asin)

/--
Function `filter_discounted_items` (lines 405-470): evaluate every search item,
then sort the accepted records by `discount_percent` descending.
-/
def filter_discounted_items (partnerTag : Str) (detail : Str → Option ProductInfo)
    (items : List Str) (min_discount_percent : ℚ) : List DiscountRecord :=
  sortByDiscountDesc (accepted_records partnerTag detail items min_discount_percent)

/-!  The Twitter message template (`post_to_twitter`, lines 510-534).  -/

/--
Round to the nearest integer, ties to even — the rounding of Python's
`format` (idealised to exact rational inputs).
-/
def roundHalfEven (q : ℚ) : ℤ :=
  let f := ⌊q⌋
  let r := q - f
  if r < 1 / 2 then f
  else if 1 / 2 < r then f + 1
  else if f % 2 = 0 then f else f + 1

/-- Decimal digits of a natural number, most significant first. -/
def digitsOf (n : Nat) : Str := Nat.toDigits 10 n

/-- Insert a comma after every group of three characters of a reversed digit list. -/
def commaRev : Str → Str
  | a :: b :: c :: d :: rest => a :: b :: c :: ',' :: commaRev (d :: rest)
  | s => s

/-- Group a digit string in threes from the right, Python's `','` format option. -/
def commaGroup (ds : Str) : Str := (commaRev ds.reverse).reverse

/-- Python `f"{q:,.0f}"`: round to an integer and group the digits in threes. -/
def fmtComma0 (q : ℚ) : Str :=
  let n := roundHalfEven q
  (if n < 0 then ['-'] else []) ++ commaGroup (digitsOf n.natAbs)

/-- Python `f"{q:.1f}"`: round to one decimal place. -/
def fmt1 (q : ℚ) : Str :=
  let n := roundHalfEven (q * 10)
  (if n < 0 then ['-'] else []) ++ digitsOf (n.natAbs / 10) ++ ['.'] ++
    digitsOf (n.natAbs % 10)

/--
Python `str.replace`, bounded by a fuel argument: scan left to right,
replacing each non-overlapping occurrence of `pat` (the empty-pattern
case of Python never arises here).
-/
def replaceAllAux (pat rep : Str) : Nat → Str → Str
  | _, [] => []
  | 0, s => s
  | fuel + 1, c :: s =>
    if pat ≠ [] ∧ isPref pat (c :: s) = true then
      rep ++ replaceAllAux pat rep fuel (List.drop pat.length (c :: s))
    else c :: replaceAllAux pat rep fuel s

/-- Python `s.replace(pat, rep)`. -/
def replaceAll (pat rep s : Str) : Str := replaceAllAux pat rep s.length s

/-- The fixed opening of the Twitter message (line 516). -/
def twitter_post_header (r : DiscountRecord) : Str :=
  ("🔥【".toList) ++ fmt1 r.discount_percent ++ ("%オフ】Amazon直販割引🔥#PR\n\n".toList)

/-- The title line as first built: `f"{product['title'][:80]}..."` (line 517). -/
def twitter_title_long (r : DiscountRecord) : Str :=
  r.title.take 80 ++ ("...".toList)

/-- The truncated title: `product['title'][:title_max] + "..."` with `title_max = 50` (line 526). -/
def twitter_title_short (r : DiscountRecord) : Str :=
  r.title.take 50 ++ ("...".toList)

/-- Everything of the message after the title line (lines 517-521). -/
def twitter_post_tail (r : DiscountRecord) : Str :=
  ("\n\n✅ 現在価格: ".toList) ++ fmtComma0 r.current_price ++
    ("円\n❌ 元の価格: ".toList) ++ fmtComma0 r.original_price ++
    ("円\n💰 割引額: ".toList) ++ fmtComma0 r.discount_amount ++
    ("円\n\n: ".toList) ++ r.url ++ ("\n\n".toList)

/--
The message text built by `post_to_twitter` (lines 516-527): the fixed
template, then — when the text exceeds 270 characters — the replacement
of the 80-character title line by the 50-character one.
-/
def twitter_post_text (r : DiscountRecord) : Str :=
  let post := twitter_post_header r ++ twitter_title_long r ++ twitter_post_tail r
  if 270 < post.length then
    replaceAll (twitter_title_long r) (twitter_title_short r) post
  else post

/-!  The deduplication store (`discount_results.json`).  -/

/--
The observable content of the results file: absent, whitespace-only
(`content.strip()` empty), unparsable (a `json.loads` failure, carrying
the raw text), or a parsed list of records.
-/
inductive StoreContent where
  | absent
  | blank
  | corruptContent (raw : Str)
  | validList (entries : List DiscountRecord)
deriving DecidableEq, Repr

/-- Severity of a log message emitted by an operation. -/
inductive Severity where
  | info
  | warning
  | error
deriving DecidableEq, Repr

/--
Function `load_previous_results` (lines 751-772): the set of posted ASINs (as the
list of `asin` fields, set membership being list membership), the file
content afterwards, and the severities logged.  An absent file is
created as an empty JSON list; unparsable content raises inside the
`try`, is caught, logged as an error, and leaves both the accumulated
set empty (the exception fires before any `add`) and the file untouched.
-/
def load_previous_results : StoreContent → List Str × StoreContent × List Severity
  | .absent => ([], .validList [], [.info])
  | .blank => ([], .blank, [.info])
  | .corruptContent raw => ([], .corruptContent raw, [.error])
  | .validList es => (es.map (·.asin), .validList es, [.info])

/--
The `existing_results` read of `save_results` (lines 778-783): `none`
exactly when `json.loads` raises on the stored content.
-/
def existing_results : StoreContent → Option (List DiscountRecord)
  | .absent => some []
  | .blank => some []
  | .corruptContent _ => none
  | .validList es => some es

/--
Function `save_results` (lines 774-800): prepend the new records to the existing
ones, truncate to `MAX_RESULTS_STORED`, and write; any exception (in
particular an unparsable existing file) is caught before anything is
written and reported as `False`.
-/
def save_results (st : StoreContent) (new_results : List DiscountRecord) :
    Bool × StoreContent :=
  match existing_results st with
  | none => (false, st)
  | some existing => (true, .validList ((new_results ++ existing).take MAX_RESULTS_STORED))

/-- A sequence of `record` calls against the store, as in claim C4. -/
def run_record_calls (start : StoreContent) (batches : List (List DiscountRecord)) :
    StoreContent :=
  batches.foldl (fun st b => (save_results st b).2) start

/-!  The main run (lines 802-900).  -/

/--
The run-level environment: the `PARTNER_TAG` variable, whether the
Twitter client was set up (`twitter_client` is not `None`), whether the
Threads credentials are present (`threads_ready`), and oracles for the
outcome of each posting attempt.
-/
structure RunEnv where
  partnerTag : Str
  twitter_ready : Bool
  threads_ready : Bool
  twitterPostOk : DiscountRecord → Bool
  threadsPostOk : DiscountRecord → Bool

/--
The search configuration read by `main` (lines 811-812): the minimum and
maximum discount percentages of `search_config.json`.
-/
structure Config where
  min_discount_percent : ℚ
  max_discount_percent : ℚ

/--
The marketplace responses of one run: the `search_items` result for each
configured search task in order (`none` for a failed or empty search),
and the `get_product_info` responses keyed by ASIN.
-/
structure Marketplace where
  searchResults : List (Option (List Str))
  detail : Str → Option ProductInfo

/-- A publish target of the dispatcher. -/
inductive PubTarget where
  | twitter
  | threads
deriving DecidableEq, Repr

/-- One submission of an item to a publish target. -/
structure PubEvent where
  target : PubTarget
  asin : Str
deriving DecidableEq, Repr

/--
The mutable state of `main`'s loop: `posted_asins`, `new_results`, and
the trace of publish submissions.
-/
structure RunState where
  posted_asins : List Str
  new_results : List DiscountRecord
  events : List PubEvent

/--
The per-item body of `main`'s inner loop (lines 848-888): skip an ASIN
already in `posted_asins`; otherwise attempt each ready target, attach
the outcome flags, append to `new_results` and add the ASIN to
`posted_asins` whether or not the posts succeeded.
-/
def process_item (env : RunEnv) (s : RunState) (item : DiscountRecord) : RunState :=
  if item.asin ∈ s.posted_asins then s
  else
    let posted_to_twitter := if env.twitter_ready then env.twitterPostOk item else false
    let posted_to_threads := if env.threads_ready then env.threadsPostOk item else false
    let evs :=
      (if env.twitter_ready then [PubEvent.mk .twitter item.asin] else []) ++
        (if env.threads_ready then [PubEvent.mk .threads item.asin] else [])
    { posted_asins := s.posted_asins ++ [item.asin]
      new_results := s.new_results ++
        [{ item with
            posted_to_twitter := posted_to_twitter
            posted_to_threads := posted_to_threads }]
      events := s.events ++ evs }

/--
One iteration of `main`'s task loop (lines 826-888): skip a failed or
empty search, otherwise filter the items and process each accepted
record in order.
-/
def process_task (env : RunEnv) (detail : Str → Option ProductInfo)
    (min_discount_percent : ℚ) (s : RunState) :
    Option (List Str) → RunState
  | none => s
  | some items =>
    if items.isEmpty then s
    else
      (filter_discounted_items env.partnerTag detail items min_discount_percent).foldl
        (process_item env) s

/--
Function `main` (lines 802-900): load the posted ASINs, process every search task
in configuration order, and save the new results (only when there are
any).  Returns the final loop state and the resulting store content.
Note that `main` reads `cfg.max_discount_percent` (line 812) but passes
only `min_discount` to `filter_discounted_items` (line 839).
-/
def run_main (env : RunEnv) (cfg : Config) (mkt : Marketplace)
    (store : StoreContent) : RunState × StoreContent :=
  let loaded := load_previous_results store
  let s0 : RunState := ⟨loaded.1, [], []⟩
  let sF := mkt.searchResults.foldl
    (process_task env mkt.detail cfg.min_discount_percent) s0
  let store2 :=
    if sF.new_results.isEmpty then loaded.2.1
    else (save_results loaded.2.1 sF.new_results).2
  (sF, store2)

/--
The full sequence of accepted records of one run, in the order `main`
hands them to deduplication and publishing (task by task, each task's
records sorted by the per-task sort of `filter_discounted_items`).
-/
def accepted_sequence (env : RunEnv) (cfg : Config) (mkt : Marketplace) :
    List DiscountRecord :=
  (mkt.searchResults.map fun res =>
    match res with
    | none => []
    | some items =>
      if items.isEmpty then []
      else filter_discounted_items env.partnerTag mkt.detail items
        cfg.min_discount_percent).flatten

/-!  ## Lemmas about the stable descending sort  -/

/-- Sorted by `discount_percent`, largest first. -/
def DescByPercent (l : List DiscountRecord) : Prop :=
  List.Pairwise (fun a b => b.discount_percent ≤ a.discount_percent) l

theorem mem_insertDesc {x z : DiscountRecord} {l : List DiscountRecord} :
    z ∈ insertDesc x l ↔ z = x ∨ z ∈ l := by
  induction l with
  | nil => simp [insertDesc]
  | cons y ys ih =>
    by_cases h : y.discount_percent < x.discount_percent
    · simp [insertDesc, h]
    · simp [insertDesc, h, ih]
      tauto

theorem pairwise_insertDesc {x : DiscountRecord} {l : List DiscountRecord}
    (h : DescByPercent l) : DescByPercent (insertDesc x l) := by
  induction l with
  | nil => simp [insertDesc, DescByPercent]
  | cons y ys ih =>
    rcases h with - | ⟨hy, hys⟩
    by_cases hlt : y.discount_percent < x.discount_percent
    · simp only [insertDesc, if_pos hlt]
      refine List.Pairwise.cons ?_ (List.Pairwise.cons hy hys)
      intro z hz
      rcases List.mem_cons.mp hz with rfl | hz
      · exact le_of_lt hlt
      · exact le_trans (hy z hz) (le_of_lt hlt)
    · simp only [insertDesc, if_neg hlt]
      refine List.Pairwise.cons ?_ (ih hys)
      intro z hz
      rcases mem_insertDesc.mp hz with rfl | hz
      · exact le_of_not_lt hlt
      · exact hy z hz

theorem perm_insertDesc (x : DiscountRecord) (l : List DiscountRecord) :
    (insertDesc x l).Perm (x :: l) := by
  induction l with
  | nil => simp [insertDesc]
  | cons y ys ih =>
    by_cases hlt : y.discount_percent < x.discount_percent
    · simp [insertDesc, hlt]
    · simp only [insertDesc, if_neg hlt]
      exact (ih.cons y).trans (List.Perm.swap x y ys)

theorem filter_insertDesc (x : DiscountRecord) (l : List DiscountRecord)
    (h : DescByPercent l) (c : ℚ) :
    (insertDesc x l).filter (fun r => decide (r.discount_percent = c)) =
      l.filter (fun r => decide (r.discount_percent = c)) ++
        (if x.discount_percent = c then [x] else []) := by
  induction l with
  | nil => by_cases hx : x.discount_percent = c <;> simp [insertDesc, hx]
  | cons y ys ih =>
    rcases h with - | ⟨hy, hys⟩
    by_cases hlt : y.discount_percent < x.discount_percent
    · simp only [insertDesc, if_pos hlt]
      by_cases hx : x.discount_percent = c
      · have hnil : (y :: ys).filter (fun r => decide (r.discount_percent = c)) = [] := by
          refine List.filter_eq_nil_iff.mpr ?_
          intro z hz
          have hzle : z.discount_percent ≤ y.discount_percent := by
            rcases List.mem_cons.mp hz with rfl | hz
            · exact le_refl _
            · exact hy z hz
          have : z.discount_percent < c := lt_of_le_of_lt hzle (hx ▸ hlt)
          simp [ne_of_lt this]
        rw [List.filter_cons_of_pos (by simp [hx]), hnil]
        simp [hx, hnil]
      · rw [List.filter_cons_of_neg (by simp [hx])]
        simp [hx]
    · simp only [insertDesc, if_neg hlt]
      by_cases hyc : y.discount_percent = c
      · rw [List.filter_cons_of_pos (by simp [hyc]), List.filter_cons_of_pos (by simp [hyc]),
          ih hys, List.cons_append]
      · rw [List.filter_cons_of_neg (by simp [hyc]), List.filter_cons_of_neg (by simp [hyc]),
          ih hys]

theorem pairwise_sort_foldl (l acc : List DiscountRecord) (h : DescByPercent acc) :
    DescByPercent (l.foldl (fun a x => insertDesc x a) acc) := by
  induction l generalizing acc with
  | nil => exact h
  | cons x xs ih => exact ih _ (pairwise_insertDesc h)

theorem perm_sort_foldl (l acc : List DiscountRecord) :
    (l.foldl (fun a x => insertDesc x a) acc).Perm (acc ++ l) := by
  induction l generalizing acc with
  | nil => simp
  | cons x xs ih =>
    refine (ih (insertDesc x acc)).trans ?_
    exact ((perm_insertDesc x acc).append_right xs).trans List.perm_middle.symm

theorem filter_sort_foldl (l acc : List DiscountRecord) (h : DescByPercent acc) (c : ℚ) :
    (l.foldl (fun a x => insertDesc x a) acc).filter
        (fun r => decide (r.discount_percent = c)) =
      acc.filter (fun r => decide (r.discount_percent = c)) ++
        l.filter (fun r => decide (r.discount_percent = c)) := by
  induction l generalizing acc with
  | nil => simp
  | cons x xs ih =>
    rw [List.foldl_cons, ih _ (pairwise_insertDesc h), filter_insertDesc x acc h c]
    by_cases hx : x.discount_percent = c
    · rw [List.filter_cons_of_pos (by simp [hx])]
      simp [hx]
    · rw [List.filter_cons_of_neg (by simp [hx])]
      simp [hx]

theorem sortByDiscountDesc_pairwise (l : List DiscountRecord) :
    DescByPercent (sortByDiscountDesc l) :=
  pairwise_sort_foldl l [] (List.Pairwise.nil)

theorem sortByDiscountDesc_perm (l : List DiscountRecord) :
    (sortByDiscountDesc l).Perm l :=
  (perm_sort_foldl l []).trans (by simp)

theorem sortByDiscountDesc_stable (l : List DiscountRecord) (c : ℚ) :
    (sortByDiscountDesc l).filter (fun r => decide (r.discount_percent = c)) =
      l.filter (fun r => decide (r.discount_percent = c)) :=
  (filter_sort_foldl l [] List.Pairwise.nil c).trans (by simp)

/-!  ## Lemmas about the main processing loop  -/

theorem process_item_of_mem {env : RunEnv} {s : RunState} {item : DiscountRecord}
    (h : item.asin ∈ s.posted_asins) : process_item env s item = s := by
  simp [process_item, h]

theorem process_item_of_not_mem (env : RunEnv) {s : RunState} {item : DiscountRecord}
    (h : item.asin ∉ s.posted_asins) :
    (process_item env s item).posted_asins = s.posted_asins ++ [item.asin] ∧
      ∃ item' : DiscountRecord, item'.asin = item.asin ∧
        (process_item env s item).new_results = s.new_results ++ [item'] := by
  refine ⟨by simp [process_item, h], ?_⟩
  refine ⟨{ item with
      posted_to_twitter := if env.twitter_ready then env.twitterPostOk item else false
      posted_to_threads := if env.threads_ready then env.threadsPostOk item else false },
    rfl, ?_⟩
  simp [process_item, h]

/--
Folding the per-item step appends: the ASINs added to `posted_asins` are
exactly the ASINs of the records appended to `new_results`.
-/
theorem foldl_state (env : RunEnv) (seq : List DiscountRecord) (s : RunState) :
    ∃ added : List DiscountRecord,
      (seq.foldl (process_item env) s).posted_asins =
          s.posted_asins ++ added.map (·.asin) ∧
        (seq.foldl (process_item env) s).new_results = s.new_results ++ added := by
  induction seq generalizing s with
  | nil => exact ⟨[], by simp⟩
  | cons x xs ih =>
    rw [List.foldl_cons]
    by_cases h : x.asin ∈ s.posted_asins
    · rw [process_item_of_mem h]
      exact ih s
    · obtain ⟨hp, item', hasin, hn⟩ := process_item_of_not_mem env h
      obtain ⟨added, ha, hb⟩ := ih (process_item env s x)
      refine ⟨item' :: added, ?_, ?_⟩
      · rw [ha, hp, hasin.symm]
        simp
      · rw [hb, hn]
        simp

theorem foldl_posted_mono (env : RunEnv) (seq : List DiscountRecord) (s : RunState)
    {a : Str} (h : a ∈ s.posted_asins) :
    a ∈ (seq.foldl (process_item env) s).posted_asins := by
  obtain ⟨added, hp, -⟩ := foldl_state env seq s
  rw [hp]
  exact List.mem_append_left _ h

/-- Every accepted record's ASIN ends up in `posted_asins`. -/
theorem foldl_covers (env : RunEnv) (seq : List DiscountRecord) (s : RunState) :
    ∀ r ∈ seq, r.asin ∈ (seq.foldl (process_item env) s).posted_asins := by
  induction seq generalizing s with
  | nil => simp
  | cons x xs ih =>
    intro r hr
    rcases List.mem_cons.mp hr with rfl | hr
    · rw [List.foldl_cons]
      by_cases h : r.asin ∈ s.posted_asins
      · rw [process_item_of_mem h]
        exact foldl_posted_mono env xs s h
      · obtain ⟨hp, -⟩ := process_item_of_not_mem env h
        refine foldl_posted_mono env xs _ ?_
        rw [hp]
        simp
    · exact ih _ r hr

/-- When every accepted ASIN is already posted, the fold is a no-op. -/
theorem foldl_skip (env : RunEnv) (seq : List DiscountRecord) (s : RunState)
    (h : ∀ r ∈ seq, r.asin ∈ s.posted_asins) :
    seq.foldl (process_item env) s = s := by
  induction seq with
  | nil => rfl
  | cons x xs ih =>
    rw [List.foldl_cons, process_item_of_mem (h x (by simp))]
    exact ih fun r hr => h r (List.mem_cons_of_mem x hr)

/--
The nested task/item loops of `main` process exactly the run's accepted
sequence, record by record.
-/
theorem run_main_eq_foldl_accepted (env : RunEnv) (cfg : Config) (mkt : Marketplace)
    (store : StoreContent) :
    (run_main env cfg mkt store).1 =
      (accepted_sequence env cfg mkt).foldl (process_item env)
        ⟨(load_previous_results store).1, [], []⟩ := by
  have htask : ∀ (s : RunState) (res : Option (List Str)),
      process_task env mkt.detail cfg.min_discount_percent s res =
        (match res with
          | none => ([] : List DiscountRecord)
          | some items =>
            if items.isEmpty then []
            else filter_discounted_items env.partnerTag mkt.detail items
              cfg.min_discount_percent).foldl (process_item env) s := by
    intro s res
    match res with
    | none => rfl
    | some items =>
      by_cases h : items.isEmpty
      · simp [process_task, h]
      · simp [process_task, h]
  show (mkt.searchResults.foldl
      (process_task env mkt.detail cfg.min_discount_percent)
      ⟨(load_previous_results store).1, [], []⟩) = _
  rw [accepted_sequence, List.foldl_flatten, List.foldl_map]
  congr 1
  funext s res
  exact htask s res

/-!  ## The deduplication invariant of the publish loop  -/

/--
The loop invariant of `main`'s item loop, relative to the initially
loaded `SeenSet` `seen0`: the seen set only grows, every publish
submission was for an identifier that was not initially seen and is now
in `posted_asins`, and no target ever received the same identifier
twice.
-/
def EventsInv (seen0 : List Str) (s : RunState) : Prop :=
  (∀ a ∈ seen0, a ∈ s.posted_asins) ∧
    (∀ e ∈ s.events, e.asin ∉ seen0 ∧ e.asin ∈ s.posted_asins) ∧
    ((s.events.filter fun e => decide (e.target = .twitter)).map (·.asin)).Nodup ∧
    ((s.events.filter fun e => decide (e.target = .threads)).map (·.asin)).Nodup

theorem eventsInv_process_item (env : RunEnv) {seen0 : List Str} {s : RunState}
    (item : DiscountRecord) (h : EventsInv seen0 s) :
    EventsInv seen0 (process_item env s item) := by
  by_cases hmem : item.asin ∈ s.posted_asins
  · rwa [process_item_of_mem hmem]
  · obtain ⟨h1, h2, h3, h4⟩ := h
    have hnotseen : item.asin ∉ seen0 := fun hc => hmem (h1 _ hc)
    simp only [process_item, if_neg hmem]
    have hdisj : ∀ tgt : PubTarget,
        List.Disjoint
          (((s.events.filter fun e => decide (e.target = tgt)).map (·.asin)))
          ((((if env.twitter_ready then [PubEvent.mk .twitter item.asin] else []) ++
              if env.threads_ready then [PubEvent.mk .threads item.asin] else []).filter
                fun e => decide (e.target = tgt)).map (·.asin)) := by
      intro tgt a ha hb
      have ha' : a ∈ s.posted_asins := by
        obtain ⟨e, he, rfl⟩ := List.mem_map.mp ha
        exact (h2 e (List.mem_of_mem_filter he)).2
      have hb' : a = item.asin := by
        obtain ⟨e, he, rfl⟩ := List.mem_map.mp hb
        have he' := List.mem_of_mem_filter he
        rcases List.mem_append.mp he' with h5 | h5 <;> split at h5 <;> simp_all
      exact hmem (hb' ▸ ha')
    refine ⟨?_, ?_, ?_, ?_⟩
    · intro a ha
      exact List.mem_append_left _ (h1 a ha)
    · intro e he
      rcases List.mem_append.mp he with hold | hnew
      · exact ⟨(h2 e hold).1, List.mem_append_left _ (h2 e hold).2⟩
      · have hasin : e.asin = item.asin := by
          rcases List.mem_append.mp hnew with h5 | h5 <;> split at h5 <;> simp_all
        refine ⟨hasin ▸ hnotseen, ?_⟩
        rw [hasin]
        exact List.mem_append_right _ (by simp)
    · rw [List.filter_append, List.map_append]
      refine List.nodup_append.mpr ⟨h3, ?_, hdisj .twitter⟩
      cases htw : env.twitter_ready <;> cases hth : env.threads_ready <;> simp
    · rw [List.filter_append, List.map_append]
      refine List.nodup_append.mpr ⟨h4, ?_, hdisj .threads⟩
      cases htw : env.twitter_ready <;> cases hth : env.threads_ready <;> simp

theorem eventsInv_foldl (env : RunEnv) {seen0 : List Str}
    (seq : List DiscountRecord) (s : RunState) (h : EventsInv seen0 s) :
    EventsInv seen0 (seq.foldl (process_item env) s) := by
  induction seq generalizing s with
  | nil => exact h
  | cons x xs ih => exact ih _ (eventsInv_process_item env x h)

/-!  ## Lemmas connecting load, save and the runs  -/

theorem load_seen_of_existing (store : StoreContent) (es : List DiscountRecord)
    (h : existing_results (load_previous_results store).2.1 = some es) :
    (load_previous_results store).1 = es.map (·.asin) := by
  cases store <;> simp_all [load_previous_results, existing_results]

theorem load_seen_of_load (store : StoreContent) :
    (load_previous_results (load_previous_results store).2.1).1 =
      (load_previous_results store).1 := by
  cases store <;> rfl

/--
C6 (amended): a second run over identical marketplace responses, with
the store persisted by the first run, publishes nothing — under the
conditions that actually make this hold in the code: the store loaded by
the first run must be readable at save time, and prepending the run's
new results to it must not overflow `MAX_RESULTS_STORED` (truncation
silently forgets seen identifiers).
-/
theorem second_run_publishes_nothing (env : RunEnv) (cfg : Config) (mkt : Marketplace)
    (store : StoreContent) (es : List DiscountRecord)
    (h1 : existing_results (load_previous_results store).2.1 = some es)
    (h2 : ((run_main env cfg mkt store).1.new_results ++ es).length ≤ MAX_RESULTS_STORED) :
    (run_main env cfg mkt (run_main env cfg mkt store).2).1 =
      ⟨(load_previous_results (run_main env cfg mkt store).2).1, [], []⟩ := by
  have hseen1 : (load_previous_results store).1 = es.map (·.asin) :=
    load_seen_of_existing store es h1
  have hrun1 := run_main_eq_foldl_accepted env cfg mkt store
  -- the accepted ASINs of the run, all covered by the first run's final seen set
  obtain ⟨added, hposted, hnew⟩ :=
    foldl_state env (accepted_sequence env cfg mkt)
      ⟨(load_previous_results store).1, [], []⟩
  have hadded : added = (run_main env cfg mkt store).1.new_results := by
    rw [hrun1, hnew]
    simp
  have hcover : ∀ r ∈ accepted_sequence env cfg mkt,
      r.asin ∈ (load_previous_results store).1 ++
        ((run_main env cfg mkt store).1.new_results.map (·.asin)) := by
    intro r hr
    have := foldl_covers env (accepted_sequence env cfg mkt)
      ⟨(load_previous_results store).1, [], []⟩ r hr
    rw [hposted, hadded] at this
    exact this
  -- the seen set loaded by the second run contains every accepted ASIN
  have hseen2 : ∀ r ∈ accepted_sequence env cfg mkt,
      r.asin ∈ (load_previous_results (run_main env cfg mkt store).2).1 := by
    intro r hr
    have hmem := hcover r hr
    show r.asin ∈ (load_previous_results (run_main env cfg mkt store).2).1
    have hstore2 : (run_main env cfg mkt store).2 =
        if (run_main env cfg mkt store).1.new_results.isEmpty then
          (load_previous_results store).2.1
        else (save_results (load_previous_results store).2.1
          (run_main env cfg mkt store).1.new_results).2 := rfl
    by_cases hniln : (run_main env cfg mkt store).1.new_results.isEmpty
    · rw [hstore2, if_pos hniln, load_seen_of_load]
      rcases List.mem_append.mp hmem with hl | hl
      · exact hl
      · rw [List.isEmpty_iff.mp hniln] at hl
        simp at hl
    · rw [hstore2, if_neg hniln]
      have hsave : (save_results (load_previous_results store).2.1
          (run_main env cfg mkt store).1.new_results).2 =
          .validList ((run_main env cfg mkt store).1.new_results ++ es) := by
        rw [save_results, h1]
        simp only
        rw [List.take_of_length_le h2]
      rw [hsave]
      show r.asin ∈ ((run_main env cfg mkt store).1.new_results ++ es).map (·.asin)
      rw [List.map_append, ← hseen1]
      rcases List.mem_append.mp hmem with hl | hl
      · exact List.mem_append_right _ hl
      · exact List.mem_append_left _ hl
  -- hence the second run's fold is a no-op
  rw [run_main_eq_foldl_accepted]
  exact foldl_skip env _ _ hseen2

/-!  ## Lemmas about string replacement  -/

theorem isPref_append_self (pat t : Str) : isPref pat (pat ++ t) = true := by
  induction pat with
  | nil => rfl
  | cons a p ih => simp [isPref, ih]

theorem replaceAllAux_cons_pos (pat rep : Str) (f : Nat) (c : Char) (s : Str)
    (h : pat ≠ [] ∧ isPref pat (c :: s) = true) :
    replaceAllAux pat rep (f + 1) (c :: s) =
      rep ++ replaceAllAux pat rep f (List.drop pat.length (c :: s)) := by
  rw [replaceAllAux, if_pos h]

theorem replaceAllAux_cons_neg (pat rep : Str) (f : Nat) (c : Char) (s : Str)
    (h : ¬(pat ≠ [] ∧ isPref pat (c :: s) = true)) :
    replaceAllAux pat rep (f + 1) (c :: s) = c :: replaceAllAux pat rep f s := by
  rw [replaceAllAux, if_neg h]

theorem replaceAllAux_no_match (pat rep : Str) (fuel : Nat) (s : Str)
    (hf : s.length ≤ fuel)
    (h : ∀ k, k < s.length → isPref pat (s.drop k) = false) :
    replaceAllAux pat rep fuel s = s := by
  induction fuel generalizing s with
  | zero =>
    have : s = [] := List.length_eq_zero.mp (Nat.le_zero.mp hf)
    rw [this]
    rfl
  | succ f ih =>
    match s with
    | [] => rfl
    | c :: s' =>
      have h0 : isPref pat (c :: s') = false := by
        have := h 0 (by simp)
        rwa [List.drop_zero] at this
      rw [replaceAllAux_cons_neg pat rep f c s' (by simp [h0])]
      congr 1
      have hf' : s'.length ≤ f := by
        simp only [List.length_cons] at hf
        omega
      refine ih s' hf' ?_
      intro k hk
      have := h (k + 1) (by simp only [List.length_cons]; omega)
      rwa [List.drop_succ_cons] at this

theorem replaceAllAux_once (pat rep A B : Str) (fuel : Nat)
    (hf : (A ++ pat ++ B).length ≤ fuel) (hne : pat ≠ [])
    (hA : ∀ k, k < A.length → isPref pat ((A ++ pat ++ B).drop k) = false)
    (hB : ∀ k, k < B.length → isPref pat (B.drop k) = false) :
    replaceAllAux pat rep fuel (A ++ pat ++ B) = A ++ rep ++ B := by
  induction A generalizing fuel with
  | nil =>
    obtain ⟨p0, pt, rfl⟩ : ∃ p0 pt, pat = p0 :: pt := by
      cases pat with
      | nil => exact absurd rfl hne
      | cons p0 pt => exact ⟨p0, pt, rfl⟩
    obtain ⟨f, rfl⟩ : ∃ f, fuel = f + 1 := by
      cases fuel with
      | zero =>
        simp only [List.nil_append, List.length_append, List.length_cons,
          Nat.le_zero] at hf
        omega
      | succ f => exact ⟨f, rfl⟩
    show replaceAllAux (p0 :: pt) rep (f + 1) (p0 :: (pt ++ B)) = rep ++ B
    rw [replaceAllAux_cons_pos (p0 :: pt) rep f p0 (pt ++ B)
      ⟨by simp, isPref_append_self (p0 :: pt) B⟩]
    have hdrop : List.drop (p0 :: pt).length (p0 :: (pt ++ B)) = B := by
      show List.drop ((p0 :: pt)).length ((p0 :: pt) ++ B) = B
      exact List.drop_left _ _
    rw [hdrop, replaceAllAux_no_match (p0 :: pt) rep f B ?_ hB]
    simp only [List.nil_append, List.length_append, List.length_cons] at hf
    omega
  | cons a A' ih =>
    obtain ⟨f, rfl⟩ : ∃ f, fuel = f + 1 := by
      cases fuel with
      | zero =>
        simp only [List.cons_append, List.length_cons, Nat.le_zero] at hf
        omega
      | succ f => exact ⟨f, rfl⟩
    simp only [List.cons_append] at hA hf ⊢
    have h0 : isPref pat (a :: (A' ++ pat ++ B)) = false := by
      have := hA 0 (by simp)
      simpa using this
    have hcond : ¬(pat ≠ [] ∧ isPref pat (a :: (A' ++ pat ++ B)) = true) := by
      intro hcon
      have h2 := hcon.2
      rw [h0] at h2
      exact Bool.false_ne_true h2
    rw [replaceAllAux_cons_neg pat rep f a _ hcond]
    congr 1
    refine ih f ?_ ?_
    · simp only [List.length_cons] at hf
      omega
    · intro k hk
      have := hA (k + 1) (by simp only [List.length_cons]; omega)
      rwa [List.drop_succ_cons] at this

theorem replaceAll_once (pat rep A B : Str) (hne : pat ≠ [])
    (hA : ∀ k, k < A.length → isPref pat ((A ++ pat ++ B).drop k) = false)
    (hB : ∀ k, k < B.length → isPref pat (B.drop k) = false) :
    replaceAll pat rep (A ++ pat ++ B) = A ++ rep ++ B :=
  replaceAllAux_once pat rep A B _ le_rfl hne hA hB

theorem occursIn_append (u X Y : Str) : occursIn u (X ++ u ++ Y) = true := by
  rw [occursIn, List.any_eq_true]
  refine ⟨X.length, List.mem_range.mpr ?_, ?_⟩
  · have : X.length ≤ (X ++ u ++ Y).length := by simp
    omega
  · rw [List.append_assoc, List.drop_left]
    exact isPref_append_self u Y

/-!  ## Claim C1 — the acceptance band of the evaluator  -/

theorem is_reasonable_discount_spec (c o : ℚ) (h : is_reasonable_discount c o = true) :
    c < o ∧ (o - c) / o * 100 < MAX_DISCOUNT_PERCENT ∧ o ≤ c * 3 := by
  unfold is_reasonable_discount at h
  split_ifs at h with h1 h2 h3
  exact ⟨not_le.mp h1, not_le.mp h2, not_lt.mp h3⟩

theorem ratio_check_fires (c o : ℚ) (h : c * 3 < o) :
    is_reasonable_discount c o = false := by
  unfold is_reasonable_discount
  split_ifs with h1 h2
  · rfl
  · rfl
  · rfl

/--
C1 (amended): every record accepted by the evaluator (invoked, as in
`main`, with the configured minimum only) satisfies
`min_percent ≤ discount_percent < MAX_DISCOUNT_PERCENT` — the hard-coded
80, not the configured maximum — and `original ≤ current * 3`; moreover
the `original > current * 3` ratio check of `is_reasonable_discount`
rejects independently of the percent check.
-/
theorem c1_acceptance_band (cfg : Config) (tag asin : Str) (p : ProductInfo)
    (r : DiscountRecord)
    (h : evaluate_item tag cfg.min_discount_percent asin p = some r) :
    (cfg.min_discount_percent ≤ r.discount_percent ∧
        r.discount_percent < MAX_DISCOUNT_PERCENT ∧
        r.original_price ≤ r.current_price * 3) ∧
      ∀ c o : ℚ, c * 3 < o → is_reasonable_discount c o = false := by
  refine ⟨?_, ratio_check_fires⟩
  unfold evaluate_item at h
  split at h
  · exact absurd h (by simp)
  · split at h
    · rename_i cp op c o hc ho
      dsimp only at h
      split at h
      · exact absurd h (by simp)
      · split at h
        · rename_i hle hcond
          obtain ⟨hmin, hreas⟩ := hcond
          obtain ⟨-, hmax, hrat⟩ := is_reasonable_discount_spec _ _ hreas
          injection h with h
          subst h
          exact ⟨hmin, hmax, hrat⟩
        · exact absurd h (by simp)
    · exact absurd h (by simp)

/-- A product with a 50% discount, sold by Amazon. -/
def c1info : ProductInfo :=
  { title := some ("Item C1".toList)
    listings := [{ merchantName := some ("Amazon".toList)
                   price := some 50
                   savingBasis := some 100 }]
    detailPageURL := some ("https://www.amazon.co.jp/dp/C1".toList)
    imageURL := none }

/-- The record the evaluator produces for `c1info`. -/
def c1rec : DiscountRecord :=
  { asin := "C1".toList
    title := "Item C1".toList
    current_price := 50
    original_price := 100
    discount_amount := 50
    discount_percent := 50
    url := "https://www.amazon.co.jp/dp/C1".toList
    image_url := none }

/-- The evaluator accepts `c1info` with the minimum threshold 15. -/
theorem c1info_eval : evaluate_item [] 15 ("C1".toList) c1info = some c1rec := by
  unfold evaluate_item is_amazon_merchant currentPriceOf originalPriceOf
    is_reasonable_discount
  norm_num +decide [c1info, c1rec, lowerStr, MAX_DISCOUNT_PERCENT]

/--
C1 (counterexample): with a configuration whose maximum discount is 30%,
the evaluator still accepts a 50% discount — the configured
`max_discount_percent` is read by `main` but never passed on, so the
bound `discount_percent < max_percent` with the configured maximum is
false.
-/
theorem c1_counterexample :
    ¬ (∀ (cfg : Config) (tag asin : Str) (p : ProductInfo) (r : DiscountRecord),
        evaluate_item tag cfg.min_discount_percent asin p = some r →
        cfg.min_discount_percent ≤ r.discount_percent ∧
          r.discount_percent < cfg.max_discount_percent ∧
          r.original_price ≤ r.current_price * 3) := by
  intro hall
  have h := hall ⟨15, 30⟩ [] ("C1".toList) c1info c1rec c1info_eval
  have h2 : (50 : ℚ) < 30 := h.2.1
  norm_num at h2

/-- A product with a 20% discount, sold by Amazon. -/
def c1winfo : ProductInfo :=
  { title := some ("Item W".toList)
    listings := [{ merchantName := some ("Amazon".toList)
                   price := some 8000
                   savingBasis := some 10000 }]
    detailPageURL := some ("https://w".toList)
    imageURL := none }

/-- The record the evaluator produces for `c1winfo`. -/
def c1wrec : DiscountRecord :=
  { asin := "W1".toList
    title := "Item W".toList
    current_price := 8000
    original_price := 10000
    discount_amount := 2000
    discount_percent := 20
    url := "https://w".toList
    image_url := none }

/-- The evaluator accepts `c1winfo` with the minimum threshold 15. -/
theorem c1winfo_eval : evaluate_item [] 15 ("W1".toList) c1winfo = some c1wrec := by
  unfold evaluate_item is_amazon_merchant currentPriceOf originalPriceOf
    is_reasonable_discount
  norm_num +decide [c1winfo, c1wrec, lowerStr, MAX_DISCOUNT_PERCENT]

/-- C1 witness: the amended band theorem at a concrete accepted product. -/
theorem c1_acceptance_band_witness :
    evaluate_item [] (Config.mk 15 80).min_discount_percent ("W1".toList) c1winfo =
        some c1wrec ∧
      (((Config.mk 15 80).min_discount_percent ≤ c1wrec.discount_percent ∧
          c1wrec.discount_percent < MAX_DISCOUNT_PERCENT ∧
          c1wrec.original_price ≤ c1wrec.current_price * 3) ∧
        ∀ c o : ℚ, c * 3 < o → is_reasonable_discount c o = false) :=
  ⟨c1winfo_eval, c1_acceptance_band ⟨15, 80⟩ [] ("W1".toList) c1winfo c1wrec c1winfo_eval⟩

/-!  ## Claim C8 — rejection on missing prices or no discount  -/

/--
C8: whenever the current price is missing, the original price is
missing, or the original price is at most the current price, the
evaluator produces no record.
-/
theorem c8_reject_no_discount (tag : Str) (minp : ℚ) (asin : Str) (p : ProductInfo)
    (h : ∀ c o : ℚ, currentPriceOf p = some c → originalPriceOf p = some o → o ≤ c) :
    evaluate_item tag minp asin p = none := by
  unfold evaluate_item
  split
  · rfl
  · dsimp only
    rcases hc : currentPriceOf p with - | c <;> rcases ho : originalPriceOf p with - | o
    · rfl
    · rfl
    · rfl
    · dsimp only
      rw [if_pos (h c o hc ho)]

/-- C8 witness: a concrete product whose original price is below its current price. -/
def c8info : ProductInfo :=
  { title := some ("Item C8".toList)
    listings := [{ merchantName := some ("Amazon".toList)
                   price := some 100
                   savingBasis := some 80 }]
    detailPageURL := none
    imageURL := none }

theorem c8_reject_no_discount_witness :
    (∀ c o : ℚ, currentPriceOf c8info = some c → originalPriceOf c8info = some o →
        o ≤ c) ∧
      evaluate_item [] 15 ("C8".toList) c8info = none := by
  have h : ∀ c o : ℚ, currentPriceOf c8info = some c →
      originalPriceOf c8info = some o → o ≤ c := by
    intro c o hc ho
    have hc' : (100 : ℚ) = c := by
      have := hc
      simp only [currentPriceOf, c8info] at this
      exact Option.some.inj this
    have ho' : (80 : ℚ) = o := by
      have := ho
      simp only [originalPriceOf, c8info] at this
      exact Option.some.inj this
    rw [← hc', ← ho']
    norm_num
  exact ⟨h, c8_reject_no_discount [] 15 ("C8".toList) c8info h⟩

/-!  ## Claim C9 — only the first-party merchant passes  -/

/--
C9: every accepted item has a first listing whose merchant name,
lowercased, is exactly `"amazon"` or contains the marketplace domain
token `"amazon.co.jp"`; all other merchant configurations are rejected.
-/
theorem c9_first_party_only (tag : Str) (minp : ℚ) (asin : Str) (p : ProductInfo)
    (r : DiscountRecord) (h : evaluate_item tag minp asin p = some r) :
    ∃ l rest name, p.listings = l :: rest ∧ l.merchantName = some name ∧
      (lowerStr name = ("amazon".toList) ∨
        occursIn ("amazon.co.jp".toList) (lowerStr name) = true) := by
  have hm : is_amazon_merchant p = true := by
    by_contra hm
    rw [Bool.not_eq_true] at hm
    unfold evaluate_item at h
    rw [hm] at h
    simp at h
  unfold is_amazon_merchant at hm
  rcases hl : p.listings with - | ⟨l, rest⟩
  · rw [hl] at hm
    simp at hm
  · rw [hl] at hm
    dsimp only at hm
    rcases hn : l.merchantName with - | name
    · rw [hn] at hm
      simp at hm
    · rw [hn] at hm
      dsimp only at hm
      refine ⟨l, rest, name, rfl, hn, ?_⟩
      rw [Bool.or_eq_true] at hm
      rcases hm with h1 | h1
      · exact Or.inl (of_decide_eq_true h1)
      · exact Or.inr h1

theorem c9_first_party_only_witness :
    evaluate_item [] 15 ("W1".toList) c1winfo = some c1wrec ∧
      ∃ l rest name, c1winfo.listings = l :: rest ∧ l.merchantName = some name ∧
        (lowerStr name = ("amazon".toList) ∨
          occursIn ("amazon.co.jp".toList) (lowerStr name) = true) :=
  ⟨c1winfo_eval, c9_first_party_only [] 15 ("W1".toList) c1winfo c1wrec c1winfo_eval⟩

/-!  ## Claim C2 — loading a corrupt store  -/

/--
C2 (counterexample): loading a corrupt store does not overwrite it with
a fresh empty representation (and the message logged is an error, not a
warning) — the store stays corrupt.
-/
theorem c2_counterexample :
    ¬ ((load_previous_results (.corruptContent ("not json".toList))).2.1 =
          .validList [] ∧
        (load_previous_results (.corruptContent ("not json".toList))).2.2 =
          [.warning]) := by
  intro hcon
  exact absurd hcon.1 (by simp [load_previous_results])

/--
C2 (amended): loading a corrupt store returns the empty SeenSet without
crashing and logs an error; the backing store is left unchanged — still
corrupt — rather than being overwritten with a fresh empty
representation (only an absent store is freshly created).
-/
theorem c2_corrupt_load (raw : Str) :
    load_previous_results (.corruptContent raw) =
      ([], .corruptContent raw, [.error]) := rfl

/-!  ## Claim C10 — saving over a corrupt store  -/

/--
C10: when the existing store content is unparsable, `save_results`
writes nothing — the store keeps exactly its corrupt content — and
reports failure, dropping the new records.
-/
theorem c10_save_on_corrupt (raw : Str) (new_results : List DiscountRecord) :
    save_results (.corruptContent raw) new_results =
      (false, .corruptContent raw) := rfl

/-!  ## Claim C4 — the store bound under record calls  -/

/--
C4: after any sequence of `record` calls, a further successful call
leaves the store holding exactly the new records prepended to the
previously persisted ones, truncated to `MAX_RESULTS_STORED` — in
particular never more than `MAX_RESULTS_STORED` entries.
-/
theorem c4_store_bounded (start : StoreContent) (batches : List (List DiscountRecord))
    (new_results : List DiscountRecord)
    (h : (save_results (run_record_calls start batches) new_results).1 = true) :
    ∃ es, existing_results (run_record_calls start batches) = some es ∧
      (save_results (run_record_calls start batches) new_results).2 =
        .validList ((new_results ++ es).take MAX_RESULTS_STORED) ∧
      ((new_results ++ es).take MAX_RESULTS_STORED).length ≤ MAX_RESULTS_STORED := by
  rcases he : existing_results (run_record_calls start batches) with - | es
  · unfold save_results at h
    rw [he] at h
    simp at h
  · refine ⟨es, rfl, ?_, ?_⟩
    · unfold save_results
      rw [he]
    · rw [List.length_take]
      exact min_le_left _ _

/-- A record for exercising the store operations. -/
def c4rec : DiscountRecord :=
  { asin := "C4".toList
    title := "Item C4".toList
    current_price := 60
    original_price := 100
    discount_amount := 40
    discount_percent := 40
    url := "https://c4".toList
    image_url := none }

/-- C4 witness: a successful save onto an initially absent store. -/
theorem c4_store_bounded_witness :
    (save_results (run_record_calls .absent []) [c4rec]).1 = true ∧
      ∃ es, existing_results (run_record_calls .absent []) = some es ∧
        (save_results (run_record_calls .absent []) [c4rec]).2 =
          .validList (([c4rec] ++ es).take MAX_RESULTS_STORED) ∧
        (([c4rec] ++ es).take MAX_RESULTS_STORED).length ≤ MAX_RESULTS_STORED :=
  ⟨rfl, c4_store_bounded .absent [] [c4rec] rfl⟩

/-!  ## Claim C3 — where the sorting actually happens  -/

/--
C3 (amended): each task's accepted records are sorted by
`discount_percent` descending — stably, ties keeping their acceptance
order — inside `filter_discounted_items`, before that task's records are
handed to deduplication and publishing; there is no additional run-wide
sort.
-/
theorem c3_per_task_sorted (tag : Str) (detail : Str → Option ProductInfo)
    (items : List Str) (min_discount_percent : ℚ) :
    DescByPercent (filter_discounted_items tag detail items min_discount_percent) ∧
      (filter_discounted_items tag detail items min_discount_percent).Perm
        (accepted_records tag detail items min_discount_percent) ∧
      ∀ c : ℚ,
        (filter_discounted_items tag detail items min_discount_percent).filter
            (fun r => decide (r.discount_percent = c)) =
          (accepted_records tag detail items min_discount_percent).filter
            (fun r => decide (r.discount_percent = c)) :=
  ⟨sortByDiscountDesc_pairwise _, sortByDiscountDesc_perm _,
    fun c => sortByDiscountDesc_stable _ c⟩

/-- A 20%-off product for the first search task. -/
def c3infoA : ProductInfo :=
  { title := some ("Item A".toList)
    listings := [{ merchantName := some ("Amazon".toList)
                   price := some 80
                   savingBasis := some 100 }]
    detailPageURL := some ("https://a".toList)
    imageURL := none }

/-- A 50%-off product for the second search task. -/
def c3infoB : ProductInfo :=
  { title := some ("Item B".toList)
    listings := [{ merchantName := some ("Amazon".toList)
                   price := some 50
                   savingBasis := some 100 }]
    detailPageURL := some ("https://b".toList)
    imageURL := none }

/-- The record accepted for `c3infoA`. -/
def c3recA : DiscountRecord :=
  { asin := "A".toList
    title := "Item A".toList
    current_price := 80
    original_price := 100
    discount_amount := 20
    discount_percent := 20
    url := "https://a".toList
    image_url := none }

/-- The record accepted for `c3infoB`. -/
def c3recB : DiscountRecord :=
  { asin := "B".toList
    title := "Item B".toList
    current_price := 50
    original_price := 100
    discount_amount := 50
    discount_percent := 50
    url := "https://b".toList
    image_url := none }

/-- The detail oracle of the C3 run. -/
def c3detail : Str → Option ProductInfo := fun a =>
  if a = ("A".toList) then some c3infoA
  else if a = ("B".toList) then some c3infoB
  else none

/-- The environment of the C3 run. -/
def c3env : RunEnv :=
  { partnerTag := []
    twitter_ready := true
    threads_ready := false
    twitterPostOk := fun _ => true
    threadsPostOk := fun _ => true }

/-- The configuration of the C3 run. -/
def c3cfg : Config := ⟨15, 80⟩

/-- Two search tasks, the first yielding the 20%-off item, the second the 50%-off one. -/
def c3mkt : Marketplace :=
  { searchResults := [some [("A".toList)], some [("B".toList)]]
    detail := c3detail }

theorem c3filterA : filter_discounted_items [] c3detail [['A']] 15 = [c3recA] := by
  unfold filter_discounted_items accepted_records evaluate_item is_amazon_merchant
    currentPriceOf originalPriceOf is_reasonable_discount
  norm_num +decide [c3detail, c3infoA, c3recA, lowerStr, MAX_DISCOUNT_PERCENT,
    sortByDiscountDesc, insertDesc, List.filterMap_cons, List.filterMap_nil]

theorem c3filterB : filter_discounted_items [] c3detail [['B']] 15 = [c3recB] := by
  unfold filter_discounted_items accepted_records evaluate_item is_amazon_merchant
    currentPriceOf originalPriceOf is_reasonable_discount
  norm_num +decide [c3detail, c3infoB, c3recB, lowerStr, MAX_DISCOUNT_PERCENT,
    sortByDiscountDesc, insertDesc, List.filterMap_cons, List.filterMap_nil]

theorem c3accseq : accepted_sequence c3env c3cfg c3mkt = [c3recA, c3recB] := by
  simp [accepted_sequence, c3env, c3cfg, c3mkt, c3filterA, c3filterB]

/--
C3 (counterexample): the full sequence of accepted records a run hands
to deduplication and publishing — a 20%-off item from the first task
followed by a 50%-off item from the second — is not sorted by
`discount_percent` descending: the records are only sorted within each
task, and each task's records are published before the next task runs.
-/
theorem c3_counterexample :
    ¬ DescByPercent (accepted_sequence c3env c3cfg c3mkt) := by
  intro hcon
  rw [c3accseq] at hcon
  have h2 := (List.pairwise_cons.mp hcon).1 c3recB (by simp)
  have h3 : (50 : ℚ) ≤ 20 := h2
  norm_num at h3

/-!  ## Claim C5 — membership test before publish, marked seen after  -/

/--
C5: during a run, every publish submission is for an identifier that was
not in the loaded SeenSet, the identifier is in the in-memory SeenSet
when the run ends, and no publish target ever receives the same
identifier twice — the membership test precedes every publish attempt
and the identifier is added (success or failure alike) afterwards.
-/
theorem c5_seen_never_republished (env : RunEnv) (cfg : Config) (mkt : Marketplace)
    (store : StoreContent) :
    (∀ e ∈ (run_main env cfg mkt store).1.events,
        e.asin ∉ (load_previous_results store).1 ∧
          e.asin ∈ (run_main env cfg mkt store).1.posted_asins) ∧
      (((run_main env cfg mkt store).1.events.filter
            fun e => decide (e.target = .twitter)).map (·.asin)).Nodup ∧
      (((run_main env cfg mkt store).1.events.filter
            fun e => decide (e.target = .threads)).map (·.asin)).Nodup := by
  have hinv : EventsInv (load_previous_results store).1 (run_main env cfg mkt store).1 := by
    rw [run_main_eq_foldl_accepted]
    refine eventsInv_foldl env _ _ ?_
    exact ⟨fun a ha => ha, by simp, by simp, by simp⟩
  exact ⟨hinv.2.1, hinv.2.2.1, hinv.2.2.2⟩

/-!  ## Claim C6 — idempotence of a second run  -/

/-- The record published by the first C3/C6 small run, with its outcome flag. -/
def c3recA' : DiscountRecord := { c3recA with posted_to_twitter := true }

/-- The second record published by the small run, with its outcome flag. -/
def c3recB' : DiscountRecord := { c3recB with posted_to_twitter := true }

theorem c3run_newR :
    (run_main c3env c3cfg c3mkt .absent).1.new_results = [c3recA', c3recB'] := by
  rw [run_main_eq_foldl_accepted, c3accseq]
  simp +decide [process_item, c3env, c3recA, c3recB, c3recA', c3recB',
    load_previous_results]

/-- C6 witness: the amended idempotence theorem on a two-item run from an absent store. -/
theorem c6_second_run_witness :
    existing_results (load_previous_results .absent).2.1 = some [] ∧
      ((run_main c3env c3cfg c3mkt .absent).1.new_results ++
          ([] : List DiscountRecord)).length ≤ MAX_RESULTS_STORED ∧
      (run_main c3env c3cfg c3mkt (run_main c3env c3cfg c3mkt .absent).2).1 =
        ⟨(load_previous_results (run_main c3env c3cfg c3mkt .absent).2).1, [], []⟩ :=
  ⟨rfl, by rw [c3run_newR]; norm_num [MAX_RESULTS_STORED],
    second_run_publishes_nothing c3env c3cfg c3mkt .absent [] rfl
      (by rw [c3run_newR]; norm_num [MAX_RESULTS_STORED])⟩

/-- A persisted filler entry occupying the old store. -/
def c6entryB : DiscountRecord :=
  { asin := ['b']
    title := []
    current_price := 1
    original_price := 2
    discount_amount := 1
    discount_percent := 50
    url := []
    image_url := none }

/-- The persisted entry for the already-announced item `y`, last in the store. -/
def c6entryY : DiscountRecord := { c6entryB with asin := ['y'] }

/-- A full store: 199 filler entries, then the entry for `y` — exactly 200. -/
def c6store : StoreContent :=
  .validList (List.replicate 199 c6entryB ++ [c6entryY])

/-- A 50%-off product `x`, not yet announced. -/
def c6infoX : ProductInfo :=
  { title := some ("Item X".toList)
    listings := [{ merchantName := some ("Amazon".toList)
                   price := some 50
                   savingBasis := some 100 }]
    detailPageURL := some ("https://x".toList)
    imageURL := none }

/-- A 50%-off product `y`, already in the store. -/
def c6infoY : ProductInfo :=
  { title := some ("Item Y".toList)
    listings := [{ merchantName := some ("Amazon".toList)
                   price := some 50
                   savingBasis := some 100 }]
    detailPageURL := some ("https://y".toList)
    imageURL := none }

/-- The record accepted for `c6infoX`. -/
def c6recX : DiscountRecord :=
  { asin := ['x']
    title := "Item X".toList
    current_price := 50
    original_price := 100
    discount_amount := 50
    discount_percent := 50
    url := "https://x".toList
    image_url := none }

/-- The record accepted for `c6infoY`. -/
def c6recY : DiscountRecord :=
  { asin := ['y']
    title := "Item Y".toList
    current_price := 50
    original_price := 100
    discount_amount := 50
    discount_percent := 50
    url := "https://y".toList
    image_url := none }

/-- The detail oracle of the C6 runs (identical in both runs). -/
def c6detail : Str → Option ProductInfo := fun a =>
  if a = ['x'] then some c6infoX
  else if a = ['y'] then some c6infoY
  else none

/-- The environment of the C6 runs. -/
def c6env : RunEnv :=
  { partnerTag := []
    twitter_ready := true
    threads_ready := false
    twitterPostOk := fun _ => true
    threadsPostOk := fun _ => true }

/-- The configuration of the C6 runs. -/
def c6cfg : Config := ⟨15, 80⟩

/-- One search task yielding `x` and `y`, in both runs. -/
def c6mkt : Marketplace :=
  { searchResults := [some [['x'], ['y']]]
    detail := c6detail }

theorem c6filter : filter_discounted_items [] c6detail [['x'], ['y']] 15 =
    [c6recX, c6recY] := by
  unfold filter_discounted_items accepted_records evaluate_item is_amazon_merchant
    currentPriceOf originalPriceOf is_reasonable_discount
  norm_num +decide [c6detail, c6infoX, c6infoY, c6recX, c6recY, lowerStr,
    MAX_DISCOUNT_PERCENT, sortByDiscountDesc, insertDesc, List.filterMap_cons,
    List.filterMap_nil]

theorem c6accseq : accepted_sequence c6env c6cfg c6mkt = [c6recX, c6recY] := by
  simp [accepted_sequence, c6env, c6cfg, c6mkt, c6filter]

/-- The `.2` component of `run_main`, unfolded. -/
theorem run_main_store (env : RunEnv) (cfg : Config) (mkt : Marketplace)
    (store : StoreContent) :
    (run_main env cfg mkt store).2 =
      if (run_main env cfg mkt store).1.new_results.isEmpty then
        (load_previous_results store).2.1
      else
        (save_results (load_previous_results store).2.1
          (run_main env cfg mkt store).1.new_results).2 := rfl

theorem c6seen1 : (load_previous_results c6store).1 =
    List.replicate 199 (['b'] : Str) ++ [['y']] := by
  show (List.replicate 199 c6entryB ++ [c6entryY]).map (·.asin) = _
  rw [List.map_append, List.map_replicate]
  rfl

set_option maxRecDepth 2000 in
theorem c6run1_newR :
    (run_main c6env c6cfg c6mkt c6store).1.new_results =
      [{ c6recX with posted_to_twitter := true }] := by
  rw [run_main_eq_foldl_accepted, c6accseq, c6seen1]
  rw [List.foldl_cons]
  rw [show process_item c6env ⟨List.replicate 199 (['b'] : Str) ++ [['y']], [], []⟩ c6recX =
    ⟨(List.replicate 199 (['b'] : Str) ++ [['y']]) ++ [['x']],
      [{ c6recX with posted_to_twitter := true }], [⟨.twitter, ['x']⟩]⟩ from by
    unfold process_item
    rw [if_neg (by simp +decide [c6recX, List.mem_append, List.mem_replicate])]
    simp +decide [c6env, c6recX]]
  rw [List.foldl_cons]
  rw [show process_item c6env ⟨(List.replicate 199 (['b'] : Str) ++ [['y']]) ++ [['x']],
      [{ c6recX with posted_to_twitter := true }], [⟨.twitter, ['x']⟩]⟩ c6recY =
    ⟨(List.replicate 199 (['b'] : Str) ++ [['y']]) ++ [['x']],
      [{ c6recX with posted_to_twitter := true }], [⟨.twitter, ['x']⟩]⟩ from by
    unfold process_item
    rw [if_pos (by simp +decide [c6recY, List.mem_append, List.mem_replicate])]]
  rw [List.foldl_nil]

theorem c6store2 :
    (run_main c6env c6cfg c6mkt c6store).2 =
      .validList ({ c6recX with posted_to_twitter := true } ::
        List.replicate 199 c6entryB) := by
  rw [run_main_store, c6run1_newR]
  have htake : (List.replicate 199 c6entryB ++ [c6entryY]).take 199 =
      List.replicate 199 c6entryB :=
    List.take_left' (by rw [List.length_replicate])
  simp only [List.isEmpty_cons, Bool.false_eq_true, if_false, load_previous_results,
    c6store, save_results, existing_results, MAX_RESULTS_STORED]
  rw [show (200 : Nat) = 199 + 1 from rfl, List.singleton_append, List.take_succ_cons,
    htake]

theorem c6seen2 : (load_previous_results (run_main c6env c6cfg c6mkt c6store).2).1 =
    ['x'] :: List.replicate 199 (['b'] : Str) := by
  rw [c6store2]
  show ({ c6recX with posted_to_twitter := true } ::
    List.replicate 199 c6entryB).map (·.asin) = _
  rw [List.map_cons, List.map_replicate]
  rfl

set_option maxRecDepth 2000 in
theorem c6run2_events :
    (run_main c6env c6cfg c6mkt (run_main c6env c6cfg c6mkt c6store).2).1.events =
      [⟨.twitter, ['y']⟩] := by
  rw [run_main_eq_foldl_accepted, c6accseq, c6seen2]
  rw [List.foldl_cons]
  rw [show process_item c6env ⟨['x'] :: List.replicate 199 (['b'] : Str), [], []⟩ c6recX =
      ⟨['x'] :: List.replicate 199 (['b'] : Str), [], []⟩ from by
    unfold process_item
    rw [if_pos (by simp [c6recX])]]
  rw [List.foldl_cons]
  rw [show process_item c6env ⟨['x'] :: List.replicate 199 (['b'] : Str), [], []⟩ c6recY =
      ⟨(['x'] :: List.replicate 199 (['b'] : Str)) ++ [['y']],
        [{ c6recY with posted_to_twitter := true }], [⟨.twitter, ['y']⟩]⟩ from by
    unfold process_item
    rw [if_neg (by simp +decide [c6recY, List.mem_cons, List.mem_replicate])]
    simp +decide [c6env, c6recY]]
  rw [List.foldl_nil]

/--
C6 (counterexample): with a full 200-entry store whose last entry is the
already-announced item `y`, and a marketplace returning `x` (new) and
`y`, the first run publishes `x` and the save truncates `y` out of the
store; the identical second run then publishes `y` again — the second
run does not publish zero items.
-/
theorem c6_counterexample :
    ¬ ((run_main c6env c6cfg c6mkt (run_main c6env c6cfg c6mkt c6store).2).1.events =
        []) := by
  rw [c6run2_events]
  simp

/-!  ## Claim C7 — the Twitter message template and truncation  -/

/-- A record with an 80-character title and a 250-character URL. -/
def c7rec : DiscountRecord :=
  { asin := "C7".toList
    title := List.replicate 80 'T'
    current_price := 8000
    original_price := 10000
    discount_amount := 2000
    discount_percent := 20
    url := List.replicate 250 'u'
    image_url := none }

theorem c7fmt1 : fmt1 (20 : ℚ) = "20.0".toList := by
  unfold fmt1 roundHalfEven
  norm_num
  decide

theorem c7cm8000 : fmtComma0 (8000 : ℚ) = "8,000".toList := by
  unfold fmtComma0 roundHalfEven
  norm_num
  decide

theorem c7cm10000 : fmtComma0 (10000 : ℚ) = "10,000".toList := by
  unfold fmtComma0 roundHalfEven
  norm_num
  decide

theorem c7cm2000 : fmtComma0 (2000 : ℚ) = "2,000".toList := by
  unfold fmtComma0 roundHalfEven
  norm_num
  decide

set_option maxRecDepth 100000

theorem c7hdr : twitter_post_header c7rec =
    ("🔥【20.0%オフ】Amazon直販割引🔥#PR\n\n".toList) := by
  unfold twitter_post_header
  rw [show c7rec.discount_percent = (20 : ℚ) from rfl, c7fmt1]
  decide

theorem c7long : twitter_title_long c7rec =
    List.replicate 80 'T' ++ ("...".toList) := by decide

theorem c7short : twitter_title_short c7rec =
    List.replicate 50 'T' ++ ("...".toList) := by decide

theorem c7tail : twitter_post_tail c7rec =
    ("\n\n✅ 現在価格: 8,000円\n❌ 元の価格: 10,000円\n💰 割引額: 2,000円\n\n: ".toList) ++
      List.replicate 250 'u' ++ ("\n\n".toList) := by
  unfold twitter_post_tail
  rw [show c7rec.current_price = (8000 : ℚ) from rfl,
    show c7rec.original_price = (10000 : ℚ) from rfl,
    show c7rec.discount_amount = (2000 : ℚ) from rfl,
    c7cm8000, c7cm10000, c7cm2000]
  decide

theorem c7hlong : 270 < (twitter_post_header c7rec ++ twitter_title_long c7rec ++
    twitter_post_tail c7rec).length := by
  rw [c7hdr, c7long, c7tail]
  decide

theorem c7hA : ∀ k, k < (twitter_post_header c7rec).length →
    isPref (twitter_title_long c7rec)
      ((twitter_post_header c7rec ++ twitter_title_long c7rec ++
        twitter_post_tail c7rec).drop k) = false := by
  rw [c7hdr, c7long, c7tail]
  decide

theorem c7hB : ∀ k, k < (twitter_post_tail c7rec).length →
    isPref (twitter_title_long c7rec) ((twitter_post_tail c7rec).drop k) = false := by
  rw [c7long, c7tail]
  decide

/--
C7 (counterexample): a record with a 250-character URL yields a posted
message of 381 characters even after the title is truncated — the final
message is not within the platform's 280-character hard limit.
-/
theorem c7_counterexample : ¬ ((twitter_post_text c7rec).length ≤ 280) := by
  have h : twitter_post_text c7rec =
      replaceAll (twitter_title_long c7rec) (twitter_title_short c7rec)
        (twitter_post_header c7rec ++ twitter_title_long c7rec ++
          twitter_post_tail c7rec) := by
    unfold twitter_post_text
    rw [if_pos c7hlong]
  rw [h, c7hdr, c7long, c7short, c7tail]
  decide

/--
C7 (amended): the message is built from the fixed template; when it
exceeds 270 characters only the title field is replaced by its
50-character truncation — price fields and URL stay verbatim, provided
the title text occurs nowhere else in the message — but the resulting
message is not guaranteed to be within the platform's 280-character hard
limit.
-/
theorem c7_truncation (r : DiscountRecord)
    (hlong : 270 < (twitter_post_header r ++ twitter_title_long r ++
        twitter_post_tail r).length)
    (hA : ∀ k, k < (twitter_post_header r).length →
        isPref (twitter_title_long r)
          ((twitter_post_header r ++ twitter_title_long r ++
            twitter_post_tail r).drop k) = false)
    (hB : ∀ k, k < (twitter_post_tail r).length →
        isPref (twitter_title_long r) ((twitter_post_tail r).drop k) = false) :
    twitter_post_text r =
        twitter_post_header r ++ twitter_title_short r ++ twitter_post_tail r ∧
      occursIn r.url (twitter_post_text r) = true := by
  have hne : twitter_title_long r ≠ [] := by
    unfold twitter_title_long
    intro hcon
    have hlen := congrArg List.length hcon
    simp at hlen
  have heq : twitter_post_text r =
      twitter_post_header r ++ twitter_title_short r ++ twitter_post_tail r := by
    unfold twitter_post_text
    rw [if_pos hlong]
    exact replaceAll_once _ _ _ _ hne hA hB
  refine ⟨heq, ?_⟩
  rw [heq]
  unfold twitter_post_tail
  have hocc := occursIn_append r.url
    (twitter_post_header r ++ twitter_title_short r ++ ("\n\n✅ 現在価格: ".toList) ++
      fmtComma0 r.current_price ++ ("円\n❌ 元の価格: ".toList) ++
      fmtComma0 r.original_price ++ ("円\n💰 割引額: ".toList) ++
      fmtComma0 r.discount_amount ++ ("円\n\n: ".toList)) (("\n\n".toList))
  simpa only [List.append_assoc] using hocc

/-- C7 witness: the truncation theorem at the concrete long-URL record. -/
theorem c7_truncation_witness :
    (270 < (twitter_post_header c7rec ++ twitter_title_long c7rec ++
        twitter_post_tail c7rec).length) ∧
      (∀ k, k < (twitter_post_header c7rec).length →
          isPref (twitter_title_long c7rec)
            ((twitter_post_header c7rec ++ twitter_title_long c7rec ++
              twitter_post_tail c7rec).drop k) = false) ∧
      (∀ k, k < (twitter_post_tail c7rec).length →
          isPref (twitter_title_long c7rec)
            ((twitter_post_tail c7rec).drop k) = false) ∧
      (twitter_post_text c7rec =
          twitter_post_header c7rec ++ twitter_title_short c7rec ++
            twitter_post_tail c7rec ∧
        occursIn c7rec.url (twitter_post_text c7rec) = true) :=
  ⟨c7hlong, c7hA, c7hB, c7_truncation c7rec c7hlong c7hA c7hB⟩

end AmazonDiscountFinder
